import Mathlib

/-!
Verification development for the Menu state machine of a headless UI
component library (menu/dropdown widget).

The embedding below is a shallow model of the pure reducer code:

  - JavaScript Array.prototype.findIndex is modelled by jsFindIndex,
    returning -1 (as an Int) when no element matches, and the callback
    receives the element together with its index, as in JavaScript.
  - JavaScript Array.prototype.indexOf is modelled with jsFindIndex and a
    structural equality test. In JavaScript, indexOf on an array of objects
    compares references; every item record is freshly allocated at
    registration, and item ids are unique in the running program (they come
    from a monotonically increasing id hook), so structural equality on the
    model coincides with reference equality whenever ids are unique. The
    theorems that depend on the exact index recovered by indexOf carry the
    unique-ids invariant stated by the data model as a hypothesis.
  - The mutable item data ref (disabled flag, cached text value) is
    modelled as the snapshot the reducer reads at dispatch time.
  - activeItemIndex has type Option Int: the source field is
    number or null, and the UnregisterItem reducer can in principle store
    the number -1 coming out of indexOf, so Option Nat would not be
    faithful.
  - The two DOM refs held in the state (buttonRef, itemsRef) are not part
    of the model: no reducer reads or writes them.
  - useMenuContext is modelled as a function from an optional context
    value; throwing the configuration error is modelled with Except.error.
-/

namespace TailwindMenu

/-- JavaScript Array.prototype.findIndex with an index-aware callback,
accumulating the current position; returns -1 when nothing matches. -/
def jsFindIndexAux (p : α → Nat → Bool) : List α → Nat → Int
  | [], _ => -1
  | x :: xs, n => if p x n then (n : Int) else jsFindIndexAux p xs (n + 1)

/-- JavaScript Array.prototype.findIndex over a list. -/
def jsFindIndex (p : α → Nat → Bool) (l : List α) : Int :=
  jsFindIndexAux p l 0

/-- JavaScript Array.prototype.indexOf, via findIndex with an equality
test. -/
def jsIndexOf [DecidableEq α] (a : α) (l : List α) : Int :=
  jsFindIndex (fun x _ => decide (x = a)) l

/-- JavaScript array subscript access: arr[i] is undefined (here: none)
when i is negative or at least the length. -/
def jsIndex (l : List α) (i : Int) : Option α :=
  if h : 0 ≤ i ∧ i.toNat < l.length then some (l.get ⟨i.toNat, h.2⟩) else none

/-- JavaScript String.prototype.startsWith, modelled on the character
sequences of the two strings. -/
def jsStartsWith (s pre : String) : Bool :=
  pre.data.isPrefixOf s.data

/-- enum MenuStates from the source. -/
inductive MenuStates where
  | Open
  | Closed
deriving Repr, DecidableEq

/-- enum Focus from the source. -/
inductive Focus where
  | FirstItem
  | PreviousItem
  | NextItem
  | LastItem
  | SpecificItem
  | Nothing
deriving Repr, DecidableEq

/-- The contents of a MenuItemDataRef: a mutable record shared between an
Item instance and the state machine; the reducer reads the current
snapshot. -/
structure MenuItemData where
  textValue : Option String := none
  disabled : Bool
deriving Repr, DecidableEq

/-- One entry of the registered items list: an id together with the data
ref. -/
structure MenuItem where
  id : String
  dataRef : MenuItemData
deriving Repr, DecidableEq

/-- StateDefinition from the source, without the two DOM refs (no reducer
touches them). -/
structure StateDefinition where
  menuState : MenuStates
  items : List MenuItem
  searchQuery : String
  activeItemIndex : Option Int
deriving Repr, DecidableEq

/-- calculateActiveItemIndex from the source: resolves a Focus kind (and
optional target id) to the next active item index. -/
def calculateActiveItemIndex (state : StateDefinition) (focus : Focus)
    (id : Option String) : Option Int :=
  if state.items.length ≤ 0 then none
  else
    let items := state.items
    let activeItemIndex : Int := state.activeItemIndex.getD (-1)
    let nextActiveIndex : Option Int :=
      match focus with
      | Focus.FirstItem =>
          some (jsFindIndex (fun item _ => !item.dataRef.disabled) items)
      | Focus.PreviousItem =>
          let idx := jsFindIndex
            (fun item ridx =>
              if activeItemIndex ≠ -1 ∧
                  (items.length : Int) - (ridx : Int) - 1 ≥ activeItemIndex then
                false
              else !item.dataRef.disabled)
            items.reverse
          if idx = -1 then some idx else some ((items.length : Int) - 1 - idx)
      | Focus.NextItem =>
          some (jsFindIndex
            (fun item idx =>
              if (idx : Int) ≤ activeItemIndex then false
              else !item.dataRef.disabled)
            items)
      | Focus.LastItem =>
          let idx := jsFindIndex (fun item _ => !item.dataRef.disabled) items.reverse
          if idx = -1 then some idx else some ((items.length : Int) - 1 - idx)
      | Focus.SpecificItem =>
          some (jsFindIndex (fun item _ => decide (some item.id = id)) items)
      | Focus.Nothing => none
    match nextActiveIndex with
    | none => none
    | some i => if i = -1 then state.activeItemIndex else some i

/-- The Actions union from the source (one constructor per ActionTypes
member). -/
inductive Action where
  | toggleMenu
  | openMenu
  | closeMenu
  | goToItem (focus : Focus) (id : Option String)
  | search (value : String)
  | clearSearch
  | registerItem (id : String) (dataRef : MenuItemData)
  | unregisterItem (id : String)
deriving Repr, DecidableEq

/-- reducers[ActionTypes.ToggleMenu]. -/
def toggleMenuReducer (state : StateDefinition) : StateDefinition :=
  { state with
    menuState :=
      match state.menuState with
      | MenuStates.Open => MenuStates.Closed
      | MenuStates.Closed => MenuStates.Open }

/-- reducers[ActionTypes.CloseMenu]. -/
def closeMenuReducer (state : StateDefinition) : StateDefinition :=
  { state with menuState := MenuStates.Closed }

/-- reducers[ActionTypes.OpenMenu]. -/
def openMenuReducer (state : StateDefinition) : StateDefinition :=
  { state with menuState := MenuStates.Open }

/-- reducers[ActionTypes.GoToItem]: resolve the focus, and return the
state unchanged when the search query is already empty and the resolved
index equals the current one (the source returns the very same state
object there); otherwise clear the search query and store the resolved
index. -/
def goToItemReducer (state : StateDefinition) (focus : Focus)
    (id : Option String) : StateDefinition :=
  let activeItemIndex := calculateActiveItemIndex state focus id
  if state.searchQuery = "" ∧ state.activeItemIndex = activeItemIndex then
    state
  else
    { state with searchQuery := "", activeItemIndex := activeItemIndex }

/-- reducers[ActionTypes.Search]: append the typed value to the search
query and move to the first non-disabled item whose cached text value
starts with the new query, unless none matches or the match is already
active. The comparison item.dataRef.current.textValue?.startsWith(query)
is a plain case-sensitive prefix test; an absent text value never
matches. -/
def searchReducer (state : StateDefinition) (value : String) : StateDefinition :=
  let searchQuery := state.searchQuery ++ value
  let idx := jsFindIndex
    (fun item _ =>
      (match item.dataRef.textValue with
       | some t => jsStartsWith t searchQuery
       | none => false) && !item.dataRef.disabled)
    state.items
  if idx = -1 ∨ some idx = state.activeItemIndex then
    { state with searchQuery := searchQuery }
  else
    { state with searchQuery := searchQuery, activeItemIndex := some idx }

/-- reducers[ActionTypes.ClearSearch]. -/
def clearSearchReducer (state : StateDefinition) : StateDefinition :=
  { state with searchQuery := "" }

/-- reducers[ActionTypes.RegisterItem]: append the new item record. -/
def registerItemReducer (state : StateDefinition) (id : String)
    (dataRef : MenuItemData) : StateDefinition :=
  { state with items := state.items ++ [{ id := id, dataRef := dataRef }] }

/-- reducers[ActionTypes.UnregisterItem]. The source reads
nextItems[activeItemIndex] before splicing (undefined when out of
bounds, null when activeItemIndex is null: modelled with a nested
Option), removes the first item whose id matches, and recomputes the
active index with indexOf: null when the removed index was the active
one or when there was no active item, and indexOf of an undefined
current item yields -1. -/
def unregisterItemReducer (state : StateDefinition) (id : String) :
    StateDefinition :=
  let nextItems := state.items
  let currentActiveItem : Option (Option MenuItem) :=
    match state.activeItemIndex with
    | none => none
    | some i => some (jsIndex nextItems i)
  let idx := jsFindIndex (fun a _ => decide (a.id = id)) nextItems
  let nextItems2 := if idx ≠ -1 then nextItems.eraseIdx idx.toNat else nextItems
  { state with
    items := nextItems2,
    activeItemIndex :=
      if some idx = state.activeItemIndex then none
      else
        match currentActiveItem with
        | none => none
        | some (some it) => some (jsIndexOf it nextItems2)
        | some none => some (-1) }

/-- stateReducer from the source: dispatch on the action type. -/
def stateReducer (state : StateDefinition) (action : Action) : StateDefinition :=
  match action with
  | Action.toggleMenu => toggleMenuReducer state
  | Action.openMenu => openMenuReducer state
  | Action.closeMenu => closeMenuReducer state
  | Action.goToItem focus id => goToItemReducer state focus id
  | Action.search value => searchReducer state value
  | Action.clearSearch => clearSearchReducer state
  | Action.registerItem id dataRef => registerItemReducer state id dataRef
  | Action.unregisterItem id => unregisterItemReducer state id

/-- defaultState from the source (DOM refs omitted). -/
def defaultState : StateDefinition :=
  { menuState := MenuStates.Closed
    items := []
    searchQuery := ""
    activeItemIndex := none }

/-- useMenuContext from the source: reading the Menu context; when no
provider is above, a configuration error is raised whose message names
the offending subcomponent and the required ancestor (Menu.name is the
string Menu). The context payload type is abstract here. -/
def useMenuContext (component : String) (context : Option α) :
    Except String α :=
  match context with
  | none =>
      Except.error ("<" ++ component ++ " /> is missing a parent <Menu /> component.")
  | some ctx => Except.ok ctx

/-- The component argument the Button subcomponent passes to
useMenuContext: [Menu.name, Button.name].join(.). -/
def buttonComponentName : String := "Menu.Button"

/-- The component argument the Items subcomponent passes to
useMenuContext. -/
def itemsComponentName : String := "Menu.Items"

/-- The component argument the Item subcomponent passes to
useMenuContext. -/
def itemComponentName : String := "Menu.Item"

/-! ### Helper lemmas about the JavaScript array helpers -/

theorem jsFindIndexAux_eq_neg_one {p : α → Nat → Bool} :
    ∀ (l : List α) (n : Nat), jsFindIndexAux p l n = -1 →
      ∀ j (hj : j < l.length), p (l.get ⟨j, hj⟩) (n + j) = false := by
  intro l
  induction l with
  | nil => intro n _ j hj; simp at hj
  | cons x xs ih =>
    intro n h j hj
    by_cases hp : p x n
    · simp [jsFindIndexAux, hp] at h
    · match j with
      | 0 => simpa using Bool.of_not_eq_true hp
      | j + 1 =>
        have := ih (n + 1) (by simpa [jsFindIndexAux, hp] using h) j
          (by simpa using Nat.lt_of_succ_lt_succ hj)
        simpa [Nat.add_assoc, Nat.add_comm 1 j] using this

theorem jsFindIndexAux_spec {p : α → Nat → Bool} :
    ∀ (l : List α) (n : Nat),
      jsFindIndexAux p l n = -1 ∨
        ∃ k, ∃ hk : k < l.length,
          jsFindIndexAux p l n = ((n + k : Nat) : Int) ∧
          p (l.get ⟨k, hk⟩) (n + k) = true ∧
          ∀ j (hj : j < l.length), j < k → p (l.get ⟨j, hj⟩) (n + j) = false := by
  intro l
  induction l with
  | nil => intro n; left; rfl
  | cons x xs ih =>
    intro n
    by_cases hp : p x n
    · right
      exact ⟨0, Nat.succ_pos _, by simp [jsFindIndexAux, hp], by simpa using hp,
        fun j hj hj0 => absurd hj0 (Nat.not_lt_zero j)⟩
    · rcases ih (n + 1) with h | ⟨k, hk, heq, hpk, hmin⟩
      · left; simpa [jsFindIndexAux, hp] using h
      · right
        refine ⟨k + 1, Nat.succ_lt_succ hk, ?_, ?_, ?_⟩
        · show jsFindIndexAux p (x :: xs) n = _
          rw [show jsFindIndexAux p (x :: xs) n = jsFindIndexAux p xs (n + 1) by
            simp [jsFindIndexAux, hp]]
          rw [heq]
          congr 1
          omega
        · have : n + 1 + k = n + (k + 1) := by omega
          rw [← this]
          simpa using hpk
        · intro j hj hjk
          match j with
          | 0 => simpa using Bool.of_not_eq_true hp
          | j + 1 =>
            have := hmin j (by simpa using Nat.lt_of_succ_lt_succ hj)
              (Nat.lt_of_succ_lt_succ hjk)
            have harith : n + 1 + j = n + (j + 1) := by omega
            rw [harith] at this
            simpa using this

theorem jsFindIndex_eq_neg_one {p : α → Nat → Bool} {l : List α}
    (h : jsFindIndex p l = -1) :
    ∀ j (hj : j < l.length), p (l.get ⟨j, hj⟩) j = false := by
  intro j hj
  simpa using jsFindIndexAux_eq_neg_one l 0 h j hj

theorem jsFindIndex_spec (p : α → Nat → Bool) (l : List α) :
    jsFindIndex p l = -1 ∨
      ∃ k, ∃ hk : k < l.length,
        jsFindIndex p l = (k : Int) ∧
        p (l.get ⟨k, hk⟩) k = true ∧
        ∀ j (hj : j < l.length), j < k → p (l.get ⟨j, hj⟩) j = false := by
  rcases jsFindIndexAux_spec (p := p) l 0 with h | ⟨k, hk, heq, hpk, hmin⟩
  · exact Or.inl h
  · right
    exact ⟨k, hk, by simpa using heq, by simpa using hpk,
      fun j hj hjk => by simpa using hmin j hj hjk⟩

theorem jsFindIndex_ne_neg_one {p : α → Nat → Bool} {l : List α}
    {j : Nat} (hj : j < l.length) (hpj : p (l.get ⟨j, hj⟩) j = true) :
    jsFindIndex p l ≠ -1 := by
  intro h
  have := jsFindIndex_eq_neg_one h j hj
  rw [hpj] at this
  simp at this

theorem jsFindIndex_nonneg_of_ne {p : α → Nat → Bool} {l : List α}
    (h : jsFindIndex p l ≠ -1) :
    ∃ k, ∃ hk : k < l.length,
      jsFindIndex p l = (k : Int) ∧
      p (l.get ⟨k, hk⟩) k = true ∧
      ∀ j (hj : j < l.length), j < k → p (l.get ⟨j, hj⟩) j = false := by
  rcases jsFindIndex_spec p l with hcase | hcase
  · exact absurd hcase h
  · exact hcase

theorem jsIndexOf_spec [DecidableEq α] (a : α) (l : List α) (hmem : a ∈ l) :
    ∃ k, ∃ hk : k < l.length,
      jsIndexOf a l = (k : Int) ∧ l.get ⟨k, hk⟩ = a := by
  obtain ⟨j, hget⟩ := List.mem_iff_get.mp hmem
  have hne : jsFindIndex (fun x _ => decide (x = a)) l ≠ -1 := by
    refine jsFindIndex_ne_neg_one (j := j.1) j.2 ?_
    simp only [hget]
    simp
  obtain ⟨k, hk, heq, hpk, _⟩ := jsFindIndex_nonneg_of_ne hne
  exact ⟨k, hk, heq, by simpa using hpk⟩

theorem jsFindIndex_eq_neg_one_of_all {p : α → Nat → Bool} {l : List α}
    (h : ∀ j (hj : j < l.length), p (l.get ⟨j, hj⟩) j = false) :
    jsFindIndex p l = -1 := by
  rcases jsFindIndex_spec p l with hc | ⟨k, hk, _, hpk, _⟩
  · exact hc
  · rw [h k hk] at hpk
    simp at hpk

theorem get_mem_eraseIdx {l : List α} {i k : Nat}
    (hi : i < l.length) (hk : k < l.length) (hne : i ≠ k) :
    l.get ⟨i, hi⟩ ∈ l.eraseIdx k := by
  have hlen : (l.eraseIdx k).length = l.length - 1 := by
    simp [List.length_eraseIdx, hk]
  rcases Nat.lt_or_ge i k with hlt | hge
  · have hbound : i < (l.eraseIdx k).length := by omega
    have : (l.eraseIdx k).get ⟨i, hbound⟩ = l.get ⟨i, hi⟩ := by
      simp [List.getElem_eraseIdx, hlt]
    rw [← this]
    exact List.get_mem _ _ _
  · have hgt : k < i := Nat.lt_of_le_of_ne hge (Ne.symm hne)
    have hbound : i - 1 < (l.eraseIdx k).length := by omega
    have : (l.eraseIdx k).get ⟨i - 1, hbound⟩ = l.get ⟨i, hi⟩ := by
      have hnotlt : ¬(i - 1 < k) := by omega
      have harith : i - 1 + 1 = i := by omega
      simp [List.getElem_eraseIdx, hnotlt, harith]
    rw [← this]
    exact List.get_mem _ _ _

/-- In every case the GoToItem reducer stores (or keeps) exactly the
resolved index: when the no-op branch is taken, the resolved index equals
the current one. -/
theorem goToItemReducer_activeItemIndex (state : StateDefinition)
    (focus : Focus) (id : Option String) :
    (goToItemReducer state focus id).activeItemIndex =
      calculateActiveItemIndex state focus id := by
  unfold goToItemReducer
  by_cases h : state.searchQuery = "" ∧
      state.activeItemIndex = calculateActiveItemIndex state focus id
  · simp only [if_pos h]
    exact h.2
  · simp only [if_neg h]

/-- Characterization of calculateActiveItemIndex at Focus.FirstItem on a
non-empty items list. -/
theorem calculateActiveItemIndex_FirstItem (state : StateDefinition)
    (id : Option String) (h : ¬state.items.length ≤ 0) :
    calculateActiveItemIndex state Focus.FirstItem id =
      if jsFindIndex (fun item _ => !item.dataRef.disabled) state.items = -1 then
        state.activeItemIndex
      else some (jsFindIndex (fun item _ => !item.dataRef.disabled) state.items) := by
  simp only [calculateActiveItemIndex, if_neg h]

/-- Characterization of calculateActiveItemIndex at Focus.NextItem on a
non-empty items list. -/
theorem calculateActiveItemIndex_NextItem (state : StateDefinition)
    (id : Option String) (h : ¬state.items.length ≤ 0) :
    calculateActiveItemIndex state Focus.NextItem id =
      if jsFindIndex
          (fun item idx =>
            if (idx : Int) ≤ state.activeItemIndex.getD (-1) then false
            else !item.dataRef.disabled)
          state.items = -1 then
        state.activeItemIndex
      else some (jsFindIndex
        (fun item idx =>
          if (idx : Int) ≤ state.activeItemIndex.getD (-1) then false
          else !item.dataRef.disabled)
        state.items) := by
  simp only [calculateActiveItemIndex, if_neg h]

/-- Characterization of calculateActiveItemIndex at Focus.SpecificItem on
a non-empty items list. -/
theorem calculateActiveItemIndex_SpecificItem (state : StateDefinition)
    (id : Option String) (h : ¬state.items.length ≤ 0) :
    calculateActiveItemIndex state Focus.SpecificItem id =
      if jsFindIndex (fun item _ => decide (some item.id = id)) state.items = -1 then
        state.activeItemIndex
      else some (jsFindIndex (fun item _ => decide (some item.id = id)) state.items) := by
  simp only [calculateActiveItemIndex, if_neg h]

/-- Characterization of calculateActiveItemIndex at Focus.LastItem on a
non-empty items list: the backward scan result is mapped through
length - 1 - idx, and a found index can never be mapped to -1. -/
theorem calculateActiveItemIndex_LastItem (state : StateDefinition)
    (id : Option String) (h : ¬state.items.length ≤ 0) :
    calculateActiveItemIndex state Focus.LastItem id =
      if jsFindIndex (fun item _ => !item.dataRef.disabled) state.items.reverse = -1 then
        state.activeItemIndex
      else some ((state.items.length : Int) - 1 -
        jsFindIndex (fun item _ => !item.dataRef.disabled) state.items.reverse) := by
  by_cases hidx : jsFindIndex (fun item _ => !item.dataRef.disabled)
      state.items.reverse = -1
  · simp only [calculateActiveItemIndex, if_neg h, if_pos hidx]
  · obtain ⟨k, hk, heq, -, -⟩ := jsFindIndex_nonneg_of_ne hidx
    have hk' : k < state.items.length := by simpa using hk
    have hne2 : (state.items.length : Int) - 1 -
        jsFindIndex (fun item _ => !item.dataRef.disabled) state.items.reverse ≠ -1 := by
      rw [heq]
      omega
    simp only [calculateActiveItemIndex, if_neg h, if_neg hidx, if_neg hne2]

/-- Characterization of calculateActiveItemIndex at Focus.PreviousItem on
a non-empty items list. -/
theorem calculateActiveItemIndex_PreviousItem (state : StateDefinition)
    (id : Option String) (h : ¬state.items.length ≤ 0) :
    calculateActiveItemIndex state Focus.PreviousItem id =
      if jsFindIndex
          (fun item ridx =>
            if state.activeItemIndex.getD (-1) ≠ -1 ∧
                (state.items.length : Int) - (ridx : Int) - 1 ≥
                  state.activeItemIndex.getD (-1) then
              false
            else !item.dataRef.disabled)
          state.items.reverse = -1 then
        state.activeItemIndex
      else some ((state.items.length : Int) - 1 -
        jsFindIndex
          (fun item ridx =>
            if state.activeItemIndex.getD (-1) ≠ -1 ∧
                (state.items.length : Int) - (ridx : Int) - 1 ≥
                  state.activeItemIndex.getD (-1) then
              false
            else !item.dataRef.disabled)
          state.items.reverse) := by
  by_cases hidx : jsFindIndex
      (fun item ridx =>
        if state.activeItemIndex.getD (-1) ≠ -1 ∧
            (state.items.length : Int) - (ridx : Int) - 1 ≥
              state.activeItemIndex.getD (-1) then
          false
        else !item.dataRef.disabled)
      state.items.reverse = -1
  · simp only [calculateActiveItemIndex, if_neg h, if_pos hidx]
  · obtain ⟨k, hk, heq, -, -⟩ := jsFindIndex_nonneg_of_ne hidx
    have hk' : k < state.items.length := by simpa using hk
    have hne2 : (state.items.length : Int) - 1 -
        jsFindIndex
          (fun item ridx =>
            if state.activeItemIndex.getD (-1) ≠ -1 ∧
                (state.items.length : Int) - (ridx : Int) - 1 ≥
                  state.activeItemIndex.getD (-1) then
              false
            else !item.dataRef.disabled)
          state.items.reverse ≠ -1 := by
      rw [heq]
      omega
    simp only [calculateActiveItemIndex, if_neg h, if_neg hidx, if_neg hne2]

/-- The GoToItem reducer returns the state unchanged on the no-op
branch. -/
theorem goToItemReducer_eq_self (state : StateDefinition) (focus : Focus)
    (id : Option String)
    (h : state.searchQuery = "" ∧
      state.activeItemIndex = calculateActiveItemIndex state focus id) :
    goToItemReducer state focus id = state := by
  unfold goToItemReducer
  simp only [if_pos h]

/-- The GoToItem reducer clears the query and stores the resolved index
outside the no-op branch. -/
theorem goToItemReducer_eq_update (state : StateDefinition) (focus : Focus)
    (id : Option String)
    (h : ¬(state.searchQuery = "" ∧
      state.activeItemIndex = calculateActiveItemIndex state focus id)) :
    goToItemReducer state focus id =
      { state with
          searchQuery := ""
          activeItemIndex := calculateActiveItemIndex state focus id } := by
  unfold goToItemReducer
  simp only [if_neg h]

theorem searchReducer_searchQuery (state : StateDefinition) (v : String) :
    (searchReducer state v).searchQuery = state.searchQuery ++ v := by
  unfold searchReducer
  by_cases h : jsFindIndex
      (fun item _ =>
        (match item.dataRef.textValue with
         | some t => jsStartsWith t (state.searchQuery ++ v)
         | none => false) && !item.dataRef.disabled)
      state.items = -1 ∨
    some (jsFindIndex
      (fun item _ =>
        (match item.dataRef.textValue with
         | some t => jsStartsWith t (state.searchQuery ++ v)
         | none => false) && !item.dataRef.disabled)
      state.items) = state.activeItemIndex
  · simp only [if_pos h]
  · simp only [if_neg h]

/-- Positions with equal ids coincide when the id list has no
duplicates. -/
theorem nodup_map_id_inj {l : List MenuItem} (h : (l.map MenuItem.id).Nodup)
    {i j : Nat} (hi : i < l.length) (hj : j < l.length)
    (hid : l[i].id = l[j].id) : i = j := by
  have h1 : (l.map MenuItem.id).get ⟨i, by simpa using hi⟩ =
      (l.map MenuItem.id).get ⟨j, by simpa using hj⟩ := by
    simpa using hid
  have h2 := (List.Nodup.get_inj_iff h).mp h1
  simpa using h2

/-- UnregisterItem: when the scan finds the removed item exactly at the
active index, the resulting active index is null. -/
theorem unregisterItemReducer_removed_active (state : StateDefinition) (d : String)
    (h : some (jsFindIndex (fun a _ => decide (a.id = d)) state.items) =
      state.activeItemIndex) :
    (unregisterItemReducer state d).activeItemIndex = none := by
  unfold unregisterItemReducer
  simp only [if_pos h]

/-- UnregisterItem with a null active index keeps the active index
null. -/
theorem unregisterItemReducer_none (state : StateDefinition) (d : String)
    (h : state.activeItemIndex = none) :
    (unregisterItemReducer state d).activeItemIndex = none := by
  unfold unregisterItemReducer
  simp only [h]
  simp

/-- UnregisterItem when the scan hits an index other than the (valid)
active one: the found index is removed and the active index is recomputed
with indexOf over the shortened list. -/
theorem unregisterItemReducer_kept_erase (state : StateDefinition) (d : String)
    (i : Int) (hi : state.activeItemIndex = some i) (h0 : 0 ≤ i)
    (hlen : i.toNat < state.items.length)
    (hidx : jsFindIndex (fun a _ => decide (a.id = d)) state.items ≠ -1)
    (hne : jsFindIndex (fun a _ => decide (a.id = d)) state.items ≠ i) :
    unregisterItemReducer state d =
      { state with
          items := state.items.eraseIdx
            (jsFindIndex (fun a _ => decide (a.id = d)) state.items).toNat
          activeItemIndex := some (jsIndexOf (state.items.get ⟨i.toNat, hlen⟩)
            (state.items.eraseIdx
              (jsFindIndex (fun a _ => decide (a.id = d)) state.items).toNat)) } := by
  unfold unregisterItemReducer
  have hjsi : jsIndex state.items i = some (state.items.get ⟨i.toNat, hlen⟩) := by
    unfold jsIndex
    rw [dif_pos (⟨h0, hlen⟩ : 0 ≤ i ∧ i.toNat < state.items.length)]
  have hcond2 : ¬(some (jsFindIndex (fun a _ => decide (a.id = d)) state.items) =
      (some i : Option Int)) :=
    fun hcontra => hne (Option.some.inj hcontra)
  simp only [hi, hjsi, if_pos hidx, if_neg hcond2]

/-- UnregisterItem when the scan finds nothing and the active index is
valid: the items list is untouched and the active index is recomputed
with indexOf over the unchanged list. -/
theorem unregisterItemReducer_kept_noerase (state : StateDefinition) (d : String)
    (i : Int) (hi : state.activeItemIndex = some i) (h0 : 0 ≤ i)
    (hlen : i.toNat < state.items.length)
    (hidx : jsFindIndex (fun a _ => decide (a.id = d)) state.items = -1) :
    unregisterItemReducer state d =
      { state with
          items := state.items
          activeItemIndex := some (jsIndexOf (state.items.get ⟨i.toNat, hlen⟩)
            state.items) } := by
  unfold unregisterItemReducer
  have hjsi : jsIndex state.items i = some (state.items.get ⟨i.toNat, hlen⟩) := by
    unfold jsIndex
    rw [dif_pos (⟨h0, hlen⟩ : 0 ≤ i ∧ i.toNat < state.items.length)]
  have hcond2 : ¬(some (jsFindIndex (fun a _ => decide (a.id = d)) state.items) =
      (some i : Option Int)) := by
    rw [hidx]
    intro hcontra
    have hco := Option.some.inj hcontra
    omega
  have hnn : ¬(jsFindIndex (fun a _ => decide (a.id = d)) state.items ≠ -1) := by
    simp [hidx]
  simp only [hi, hjsi, if_neg hnn, if_neg hcond2]

/-! ### Concrete fixtures used by witnesses and counterexamples -/

/-- A first enabled fixture item. -/
def itemAlpha : MenuItem :=
  { id := "item-a", dataRef := { textValue := some "alpha", disabled := false } }

/-- A second enabled fixture item. -/
def itemBeta : MenuItem :=
  { id := "item-b", dataRef := { textValue := some "beta", disabled := false } }

/-- A third enabled fixture item. -/
def itemGamma : MenuItem :=
  { id := "item-c", dataRef := { textValue := some "gamma", disabled := false } }

/-- A disabled fixture item. -/
def itemDeltaDisabled : MenuItem :=
  { id := "item-d", dataRef := { textValue := some "delta", disabled := true } }

/-- A three-item open state with the first item active and an empty search
query. -/
def threeItemState : StateDefinition :=
  { menuState := MenuStates.Open
    items := [itemAlpha, itemBeta, itemGamma]
    searchQuery := ""
    activeItemIndex := some 0 }

/-- A one-item state whose single enabled item has the lowercased cached
text value apple, as the Item component caches
document.getElementById(id).textContent.toLowerCase(). -/
def appleState : StateDefinition :=
  { menuState := MenuStates.Open
    items := [{ id := "item-1", dataRef := { textValue := some "apple", disabled := false } }]
    searchQuery := ""
    activeItemIndex := none }

/-! ### Claim theorems -/

/-- Claim C7: dispatching Search s1 and then Search s2 yields the same
searchQuery as dispatching the single action Search (s1 ++ s2) against
the same item set, and ClearSearch resets searchQuery to the empty
string. -/
theorem search_accumulation_and_clear (state : StateDefinition) (s1 s2 : String) :
    (stateReducer (stateReducer state (Action.search s1)) (Action.search s2)).searchQuery =
      (stateReducer state (Action.search (s1 ++ s2))).searchQuery ∧
    (stateReducer state Action.clearSearch).searchQuery = "" := by
  constructor
  · show (searchReducer (searchReducer state s1) s2).searchQuery =
      (searchReducer state (s1 ++ s2)).searchQuery
    rw [searchReducer_searchQuery, searchReducer_searchQuery, searchReducer_searchQuery,
      String.append_assoc]
  · rfl

/-- Claim C9: each Menu subcomponent (Button, Items, Item) evaluated with
no enclosing Menu context fails with an error naming both the offending
subcomponent and the required Menu ancestor, and no default context is
ever substituted (the lookup never succeeds on a missing context). -/
theorem useMenuContext_missing_parent :
    (useMenuContext buttonComponentName (none : Option StateDefinition) =
      Except.error "<Menu.Button /> is missing a parent <Menu /> component.") ∧
    (useMenuContext itemsComponentName (none : Option StateDefinition) =
      Except.error "<Menu.Items /> is missing a parent <Menu /> component.") ∧
    (useMenuContext itemComponentName (none : Option StateDefinition) =
      Except.error "<Menu.Item /> is missing a parent <Menu /> component.") ∧
    (∀ (component : String) (ctx : StateDefinition),
      useMenuContext component (some ctx) = Except.ok ctx) ∧
    (∀ (component : String) (v : StateDefinition),
      useMenuContext component (none : Option StateDefinition) ≠ Except.ok v) := by
  refine ⟨rfl, rfl, rfl, fun component ctx => rfl, fun component v h => ?_⟩
  simp [useMenuContext] at h

/-- Claim C4: when the search query is empty and GoToItem resolves to the
currently active index, the reducer returns the state unchanged (the
source returns the very same object, giving reference stability);
otherwise it returns a state with the search query cleared and
activeItemIndex set to the resolved index. -/
theorem goToItem_noop_or_update (state : StateDefinition) (focus : Focus)
    (id : Option String) :
    (state.searchQuery = "" ∧
        calculateActiveItemIndex state focus id = state.activeItemIndex →
      stateReducer state (Action.goToItem focus id) = state) ∧
    (¬(state.searchQuery = "" ∧
        calculateActiveItemIndex state focus id = state.activeItemIndex) →
      stateReducer state (Action.goToItem focus id) =
        { state with
            searchQuery := ""
            activeItemIndex := calculateActiveItemIndex state focus id }) := by
  constructor <;> intro h
  · show goToItemReducer state focus id = state
    unfold goToItemReducer
    simp only [if_pos (show state.searchQuery = "" ∧
      state.activeItemIndex = calculateActiveItemIndex state focus id from ⟨h.1, h.2.symm⟩)]
  · show goToItemReducer state focus id = _
    unfold goToItemReducer
    have hc : ¬(state.searchQuery = "" ∧
        state.activeItemIndex = calculateActiveItemIndex state focus id) := by
      intro hc
      exact h ⟨hc.1, hc.2.symm⟩
    simp only [if_neg hc]

/-- Witness for claim C4: on the concrete three-item state with item 0
active and an empty query, resolving FirstItem is a no-op and the state
comes back unchanged. -/
theorem goToItem_noop_or_update_witness :
    stateReducer threeItemState (Action.goToItem Focus.FirstItem none) = threeItemState :=
  (goToItem_noop_or_update threeItemState Focus.FirstItem none).1 (by decide)

/-- Claim C10: when the items list is non-empty and every registered item
is disabled, GoToItem with focus FirstItem, LastItem, NextItem or
PreviousItem leaves activeItemIndex unchanged (the search for a
non-disabled item finds nothing and the previous value, possibly unset,
is kept). -/
theorem goToItem_all_disabled (state : StateDefinition) (id : Option String)
    (focus : Focus)
    (hne : state.items ≠ [])
    (hdis : ∀ it ∈ state.items, it.dataRef.disabled = true)
    (hf : focus = Focus.FirstItem ∨ focus = Focus.LastItem ∨
      focus = Focus.NextItem ∨ focus = Focus.PreviousItem) :
    (stateReducer state (Action.goToItem focus id)).activeItemIndex =
      state.activeItemIndex := by
  have hlen : ¬(state.items.length ≤ 0) := by
    simpa [Nat.le_zero, List.length_eq_zero] using hne
  show (goToItemReducer state focus id).activeItemIndex = _
  rw [goToItemReducer_activeItemIndex]
  have hdis' : ∀ j (hj : j < state.items.length),
      state.items[j].dataRef.disabled = true :=
    fun j hj => hdis _ (List.getElem_mem hj)
  rcases hf with hf | hf | hf | hf <;> subst hf
  · have h1 : jsFindIndex (fun item _ => !item.dataRef.disabled) state.items = -1 :=
      jsFindIndex_eq_neg_one_of_all (fun j hj => by simp [hdis' j hj])
    rw [calculateActiveItemIndex_FirstItem state id hlen, if_pos h1]
  · have h1 : jsFindIndex (fun item _ => !item.dataRef.disabled) state.items.reverse = -1 :=
      jsFindIndex_eq_neg_one_of_all (fun j hj => by
        have hjlen : j < state.items.length := by simpa using hj
        simp [hdis' (state.items.length - 1 - j) (by omega)])
    rw [calculateActiveItemIndex_LastItem state id hlen, if_pos h1]
  · have h1 : jsFindIndex
        (fun item idx =>
          if (idx : Int) ≤ state.activeItemIndex.getD (-1) then false
          else !item.dataRef.disabled)
        state.items = -1 :=
      jsFindIndex_eq_neg_one_of_all (fun j hj => by
        by_cases hc : (j : Int) ≤ state.activeItemIndex.getD (-1)
        · simp [hc]
        · simp [hc, hdis' j hj])
    rw [calculateActiveItemIndex_NextItem state id hlen, if_pos h1]
  · have h1 : jsFindIndex
        (fun item ridx =>
          if state.activeItemIndex.getD (-1) ≠ -1 ∧
              (state.items.length : Int) - (ridx : Int) - 1 ≥
                state.activeItemIndex.getD (-1) then
            false
          else !item.dataRef.disabled)
        state.items.reverse = -1 :=
      jsFindIndex_eq_neg_one_of_all (fun j hj => by
        have hjlen : j < state.items.length := by simpa using hj
        by_cases hc : state.activeItemIndex.getD (-1) ≠ -1 ∧
            (state.items.length : Int) - (j : Int) - 1 ≥ state.activeItemIndex.getD (-1)
        · simp [hc]
        · simp [hc, hdis' (state.items.length - 1 - j) (by omega)])
    rw [calculateActiveItemIndex_PreviousItem state id hlen, if_pos h1]

/-- A second disabled fixture item. -/
def itemEpsilonDisabled : MenuItem :=
  { id := "item-e", dataRef := { textValue := some "epsilon", disabled := true } }

/-- A two-item state in which every item is disabled. -/
def allDisabledState : StateDefinition :=
  { menuState := MenuStates.Open
    items := [itemDeltaDisabled, itemEpsilonDisabled]
    searchQuery := "x"
    activeItemIndex := some 1 }

/-- Witness for claim C10: with two disabled items and item 1 active,
GoToItem FirstItem keeps activeItemIndex at 1. -/
theorem goToItem_all_disabled_witness :
    (stateReducer allDisabledState (Action.goToItem Focus.FirstItem none)).activeItemIndex =
      allDisabledState.activeItemIndex :=
  goToItem_all_disabled allDisabledState none Focus.FirstItem (by decide) (by decide)
    (Or.inl rfl)

/-- Claim C8: GoToItem with focus SpecificItem and the id of a registered
item sets activeItemIndex to the index of the (first) item carrying that
id, regardless of its disabled flag: the SpecificItem scan tests only the
id and never reads the disabled flag. -/
theorem goToItem_specific_item (state : StateDefinition) (id : String)
    (j : Nat) (hj : j < state.items.length)
    (hid : state.items[j].id = id)
    (hfirst : ∀ k (hk : k < state.items.length), k < j →
      state.items[k].id ≠ id) :
    (stateReducer state (Action.goToItem Focus.SpecificItem (some id))).activeItemIndex =
      some (j : Int) := by
  have hlen : ¬(state.items.length ≤ 0) := by omega
  show (goToItemReducer state Focus.SpecificItem (some id)).activeItemIndex = _
  rw [goToItemReducer_activeItemIndex,
    calculateActiveItemIndex_SpecificItem state (some id) hlen]
  have hne : jsFindIndex (fun item _ => decide (some item.id = some id))
      state.items ≠ -1 :=
    jsFindIndex_ne_neg_one hj (by simp [hid])
  obtain ⟨k, hk, heq, hpk, hmin⟩ := jsFindIndex_nonneg_of_ne hne
  have hkj : k = j := by
    rcases Nat.lt_trichotomy k j with hlt | heq2 | hgt
    · exact absurd (by simpa using hpk) (hfirst k hk hlt)
    · exact heq2
    · have hcontra := hmin j hj hgt
      simp [hid] at hcontra
  subst hkj
  rw [if_neg hne, heq]

/-- A two-item state whose second item is disabled (used to show that
SpecificItem can target a disabled item). -/
def mixedState : StateDefinition :=
  { menuState := MenuStates.Open
    items := [itemAlpha, itemDeltaDisabled]
    searchQuery := ""
    activeItemIndex := none }

/-- Witness for claim C8: targeting the disabled second item by id makes
it the active item. -/
theorem goToItem_specific_item_witness :
    (stateReducer mixedState
        (Action.goToItem Focus.SpecificItem (some "item-d"))).activeItemIndex =
      some ((1 : Nat) : Int) :=
  goToItem_specific_item mixedState "item-d" 1 (by decide) (by decide)
    (by
      intro k hk hklt
      have hk0 : k = 0 := by omega
      subst hk0
      have hget : mixedState.items[0] = itemAlpha := rfl
      rw [hget]
      decide)

/-- Claim C5: when every non-disabled item sits at or before the current
active index (so the active index is at or beyond the last non-disabled
item), GoToItem NextItem leaves activeItemIndex unchanged (no
wrap-around); and over three enabled items with index 0 active, three
successive NextItem dispatches yield indices 1, 2, and 2 again. -/
theorem goToItem_next_no_wrap :
    (∀ (state : StateDefinition) (id : Option String) (a : Int),
      state.activeItemIndex = some a →
      (∃ j, ∃ hj : j < state.items.length,
        state.items[j].dataRef.disabled = false) →
      (∀ j (hj : j < state.items.length),
        state.items[j].dataRef.disabled = false → (j : Int) ≤ a) →
      (stateReducer state (Action.goToItem Focus.NextItem id)).activeItemIndex =
        some a) ∧
    (∀ (ms : MenuStates) (q : String) (a b c : MenuItem),
      a.dataRef.disabled = false → b.dataRef.disabled = false →
      c.dataRef.disabled = false →
      (stateReducer ⟨ms, [a, b, c], q, some 0⟩
          (Action.goToItem Focus.NextItem none)).activeItemIndex = some 1 ∧
      (stateReducer (stateReducer ⟨ms, [a, b, c], q, some 0⟩
          (Action.goToItem Focus.NextItem none))
          (Action.goToItem Focus.NextItem none)).activeItemIndex = some 2 ∧
      (stateReducer (stateReducer (stateReducer ⟨ms, [a, b, c], q, some 0⟩
          (Action.goToItem Focus.NextItem none))
          (Action.goToItem Focus.NextItem none))
          (Action.goToItem Focus.NextItem none)).activeItemIndex = some 2) := by
  constructor
  · intro state id a ha hex hall
    have hlen : ¬(state.items.length ≤ 0) := by
      obtain ⟨j, hj, -⟩ := hex
      omega
    show (goToItemReducer state Focus.NextItem id).activeItemIndex = some a
    rw [goToItemReducer_activeItemIndex, calculateActiveItemIndex_NextItem state id hlen]
    have haii : state.activeItemIndex.getD (-1) = a := by rw [ha]; rfl
    have h1 : jsFindIndex
        (fun item idx =>
          if (idx : Int) ≤ state.activeItemIndex.getD (-1) then false
          else !item.dataRef.disabled)
        state.items = -1 :=
      jsFindIndex_eq_neg_one_of_all (fun j hj => by
        simp only [haii]
        by_cases hcj : (j : Int) ≤ a
        · simp [hcj]
        · have hdisj : state.items[j].dataRef.disabled = true := by
            rcases Bool.eq_false_or_eq_true state.items[j].dataRef.disabled with ht | hf
            · exact ht
            · exact absurd (hall j hj hf) hcj
          simp [hcj, hdisj])
    rw [if_pos h1, ha]
  · intro ms q a b c ha hb hc
    have hc1 : calculateActiveItemIndex ⟨ms, [a, b, c], q, some 0⟩
        Focus.NextItem none = some 1 := by
      rw [calculateActiveItemIndex_NextItem _ _ (by simp)]
      simp [jsFindIndex, jsFindIndexAux, hb]
    have hs1 : stateReducer ⟨ms, [a, b, c], q, some 0⟩
        (Action.goToItem Focus.NextItem none) = ⟨ms, [a, b, c], "", some 1⟩ := by
      show goToItemReducer _ _ _ = _
      rw [goToItemReducer_eq_update _ _ _ (by rw [hc1]; simp), hc1]
    have hc2 : calculateActiveItemIndex ⟨ms, [a, b, c], "", some 1⟩
        Focus.NextItem none = some 2 := by
      rw [calculateActiveItemIndex_NextItem _ _ (by simp)]
      simp [jsFindIndex, jsFindIndexAux, hc]
    have hs2 : stateReducer ⟨ms, [a, b, c], "", some 1⟩
        (Action.goToItem Focus.NextItem none) = ⟨ms, [a, b, c], "", some 2⟩ := by
      show goToItemReducer _ _ _ = _
      rw [goToItemReducer_eq_update _ _ _ (by rw [hc2]; simp), hc2]
    have hc3 : calculateActiveItemIndex ⟨ms, [a, b, c], "", some 2⟩
        Focus.NextItem none = some 2 := by
      rw [calculateActiveItemIndex_NextItem _ _ (by simp)]
      simp [jsFindIndex, jsFindIndexAux]
    refine ⟨?_, ?_, ?_⟩
    · rw [hs1]
    · rw [hs1, hs2]
    · rw [hs1, hs2]
      show (goToItemReducer _ _ _).activeItemIndex = some 2
      rw [goToItemReducer_activeItemIndex, hc3]

/-- A three-item state with the last item active and an empty query. -/
def lastActiveState : StateDefinition :=
  { menuState := MenuStates.Open
    items := [itemAlpha, itemBeta, itemGamma]
    searchQuery := ""
    activeItemIndex := some 2 }

/-- Witness for claim C5: with all three items enabled and index 2
active, NextItem keeps activeItemIndex at 2. -/
theorem goToItem_next_no_wrap_witness :
    (stateReducer lastActiveState (Action.goToItem Focus.NextItem none)).activeItemIndex =
      some 2 :=
  goToItem_next_no_wrap.1 lastActiveState none 2 rfl ⟨0, by decide, by decide⟩
    (by
      intro j hj hd
      have hj3 : j < 3 := hj
      omega)

/-- Claim C6: PreviousItem from the first non-disabled item leaves
activeItemIndex unchanged (no wrap-around to the last item); in general
PreviousItem resolves to the nearest non-disabled item strictly before
the current index, skipping disabled items. -/
theorem goToItem_previous_no_wrap :
    (∀ (state : StateDefinition) (id : Option String) (a : Int),
      state.activeItemIndex = some a → 0 ≤ a →
      ∀ han : a.toNat < state.items.length,
      state.items[a.toNat].dataRef.disabled = false →
      (∀ j (hj : j < state.items.length), (j : Int) < a →
        state.items[j].dataRef.disabled = true) →
      (stateReducer state (Action.goToItem Focus.PreviousItem id)).activeItemIndex =
        some a) ∧
    (∀ (state : StateDefinition) (id : Option String) (a : Int)
      (j : Nat), ∀ hj : j < state.items.length,
      state.activeItemIndex = some a →
      (j : Int) < a →
      state.items[j].dataRef.disabled = false →
      (∀ k (hk : k < state.items.length), (k : Int) < a → j < k →
        state.items[k].dataRef.disabled = true) →
      (stateReducer state (Action.goToItem Focus.PreviousItem id)).activeItemIndex =
        some (j : Int)) := by
  constructor
  · intro state id a ha h0 han hnd hfirst
    have hlen : ¬(state.items.length ≤ 0) := by omega
    show (goToItemReducer state Focus.PreviousItem id).activeItemIndex = some a
    rw [goToItemReducer_activeItemIndex,
      calculateActiveItemIndex_PreviousItem state id hlen]
    have haii : state.activeItemIndex.getD (-1) = a := by rw [ha]; rfl
    have h1 : jsFindIndex
        (fun item ridx =>
          if state.activeItemIndex.getD (-1) ≠ -1 ∧
              (state.items.length : Int) - (ridx : Int) - 1 ≥
                state.activeItemIndex.getD (-1) then
            false
          else !item.dataRef.disabled)
        state.items.reverse = -1 :=
      jsFindIndex_eq_neg_one_of_all (fun ridx hr => by
        have hrlen : ridx < state.items.length := by simpa using hr
        simp only [haii]
        by_cases hcond : a ≠ -1 ∧
            (state.items.length : Int) - (ridx : Int) - 1 ≥ a
        · simp [hcond]
        · push_neg at hcond
          have hlt : (state.items.length : Int) - (ridx : Int) - 1 < a :=
            hcond (by omega)
          have ho : state.items.length - 1 - ridx < state.items.length := by omega
          have hoInt : ((state.items.length - 1 - ridx : Nat) : Int) < a := by omega
          have hdis := hfirst (state.items.length - 1 - ridx) ho hoInt
          simp [List.getElem_reverse, hdis])
    rw [if_pos h1, ha]
  · intro state id a j hj ha hja hnd hnear
    have hlen : ¬(state.items.length ≤ 0) := by omega
    show (goToItemReducer state Focus.PreviousItem id).activeItemIndex = some (j : Int)
    rw [goToItemReducer_activeItemIndex,
      calculateActiveItemIndex_PreviousItem state id hlen]
    have haii : state.activeItemIndex.getD (-1) = a := by rw [ha]; rfl
    have hrj_len : state.items.length - 1 - j < state.items.reverse.length := by
      simp
      omega
    have hgetrev : state.items.reverse.get
        ⟨state.items.length - 1 - j, hrj_len⟩ = state.items[j] := by
      rw [List.get_eq_getElem, List.getElem_reverse]
      congr 1
      show state.items.length - 1 - (state.items.length - 1 - j) = j
      omega
    have hcondfalse : ¬(state.activeItemIndex.getD (-1) ≠ -1 ∧
        (state.items.length : Int) - ((state.items.length - 1 - j : Nat) : Int) - 1 ≥
          state.activeItemIndex.getD (-1)) := by
      rw [haii]
      intro hcontra
      have := hcontra.2
      omega
    have hptrue : (if state.activeItemIndex.getD (-1) ≠ -1 ∧
          (state.items.length : Int) - ((state.items.length - 1 - j : Nat) : Int) - 1 ≥
            state.activeItemIndex.getD (-1) then
        false
      else !(state.items.reverse.get
        ⟨state.items.length - 1 - j, hrj_len⟩).dataRef.disabled) = true := by
      simp only [if_neg hcondfalse, hgetrev, hnd]
      rfl
    have hne : jsFindIndex
        (fun item ridx =>
          if state.activeItemIndex.getD (-1) ≠ -1 ∧
              (state.items.length : Int) - (ridx : Int) - 1 ≥
                state.activeItemIndex.getD (-1) then
            false
          else !item.dataRef.disabled)
        state.items.reverse ≠ -1 :=
      jsFindIndex_ne_neg_one hrj_len hptrue
    obtain ⟨k, hk, heq, hpk, hmin⟩ := jsFindIndex_nonneg_of_ne hne
    have hklen : k < state.items.length := by simpa using hk
    have hkrj : k = state.items.length - 1 - j := by
      rcases Nat.lt_trichotomy k (state.items.length - 1 - j) with hlt | heq2 | hgt
      · exfalso
        have hogt : j < state.items.length - 1 - k := by omega
        have hgetrev2 : state.items.reverse.get ⟨k, hk⟩ =
            state.items[state.items.length - 1 - k] := by
          rw [List.get_eq_getElem, List.getElem_reverse]
        have hpfalse : (if state.activeItemIndex.getD (-1) ≠ -1 ∧
              (state.items.length : Int) - (k : Int) - 1 ≥
                state.activeItemIndex.getD (-1) then
            false
          else !(state.items.reverse.get ⟨k, hk⟩).dataRef.disabled) = false := by
          by_cases hge : (state.items.length : Int) - (k : Int) - 1 ≥ a
          · have hcondtrue : state.activeItemIndex.getD (-1) ≠ -1 ∧
                (state.items.length : Int) - (k : Int) - 1 ≥
                  state.activeItemIndex.getD (-1) := by
              rw [haii]
              exact ⟨by omega, hge⟩
            simp only [if_pos hcondtrue]
          · have hdisk := hnear (state.items.length - 1 - k) (by omega)
              (by omega) hogt
            have hcondfalse2 : ¬(state.activeItemIndex.getD (-1) ≠ -1 ∧
                (state.items.length : Int) - (k : Int) - 1 ≥
                  state.activeItemIndex.getD (-1)) := by
              rw [haii]
              intro hco
              exact absurd hco.2 hge
            simp only [if_neg hcondfalse2, hgetrev2, hdisk]
            rfl
        rw [hpfalse] at hpk
        exact Bool.noConfusion hpk
      · exact heq2
      · exfalso
        have hcontra := hmin (state.items.length - 1 - j) hrj_len hgt
        rw [hptrue] at hcontra
        exact Bool.noConfusion hcontra
    subst hkrj
    rw [if_neg hne, heq]
    have harith : (state.items.length : Int) - 1 -
        ((state.items.length - 1 - j : Nat) : Int) = (j : Int) := by omega
    rw [harith]

/-- A three-item state over one disabled and two enabled items, with the
last item active (fixture for the PreviousItem claims). -/
def skipDisabledState : StateDefinition :=
  { menuState := MenuStates.Open
    items := [itemAlpha, itemDeltaDisabled, itemGamma]
    searchQuery := ""
    activeItemIndex := some 2 }

/-- Witness for claim C6: from index 2 over enabled, disabled, enabled
items, PreviousItem skips the disabled item at index 1 and lands on
index 0. -/
theorem goToItem_previous_no_wrap_witness :
    (stateReducer skipDisabledState
        (Action.goToItem Focus.PreviousItem none)).activeItemIndex =
      some ((0 : Nat) : Int) :=
  goToItem_previous_no_wrap.2 skipDisabledState none 2 0 (by decide) rfl (by decide)
    (by decide)
    (by
      intro k hk hka hkgt
      have hk1 : k = 1 ∨ k = 2 := by omega
      rcases hk1 with hk1 | hk1 <;> subst hk1
      · have hget : skipDisabledState.items[1] = itemDeltaDisabled := rfl
        rw [hget]
        decide
      · exfalso
        simp at hka)

/-- Claim C3: for a state satisfying the documented data-model invariant
that item ids are unique, with activeItemIndex pointing at a registered
item: unregistering that item by its id clears activeItemIndex to null,
while unregistering a different registered id keeps the active item's
logical identity — the new activeItemIndex is the position of the same
item record in the updated items list. The unique-ids hypothesis mirrors
the data-model invariant (ids come from a per-instance counter) and also
makes the structural indexOf of the model agree with the reference
indexOf of the source. -/
theorem unregister_active_identity (state : StateDefinition) (i : Int)
    (hnodup : (state.items.map MenuItem.id).Nodup)
    (hi : state.activeItemIndex = some i) (h0 : 0 ≤ i)
    (hlen : i.toNat < state.items.length) :
    ((stateReducer state
        (Action.unregisterItem
          (state.items.get ⟨i.toNat, hlen⟩).id)).activeItemIndex = none) ∧
    (∀ d : String, d ≠ (state.items.get ⟨i.toNat, hlen⟩).id →
      (∃ j, ∃ hj : j < state.items.length, state.items[j].id = d) →
      ∃ k, ∃ hk : k < (stateReducer state (Action.unregisterItem d)).items.length,
        (stateReducer state (Action.unregisterItem d)).activeItemIndex =
          some (k : Int) ∧
        (stateReducer state (Action.unregisterItem d)).items.get ⟨k, hk⟩ =
          state.items.get ⟨i.toNat, hlen⟩) := by
  constructor
  · show (unregisterItemReducer state _).activeItemIndex = none
    apply unregisterItemReducer_removed_active
    rw [hi]
    have hne : jsFindIndex
        (fun a _ => decide (a.id = (state.items.get ⟨i.toNat, hlen⟩).id))
        state.items ≠ -1 :=
      jsFindIndex_ne_neg_one hlen (by simp)
    obtain ⟨k, hk, heq, hpk, hmin⟩ := jsFindIndex_nonneg_of_ne hne
    have hkeq : k = i.toNat := nodup_map_id_inj hnodup hk hlen (by simpa using hpk)
    rw [heq, hkeq, Int.toNat_of_nonneg h0]
  · intro d hd hreg
    obtain ⟨j, hj, hjd⟩ := hreg
    have hne : jsFindIndex (fun a _ => decide (a.id = d)) state.items ≠ -1 :=
      jsFindIndex_ne_neg_one hj (by simp [hjd])
    obtain ⟨k0, hk0, heq, hpk0, hmin0⟩ := jsFindIndex_nonneg_of_ne hne
    have hk0id : state.items[k0].id = d := by simpa using hpk0
    have hk0i : k0 ≠ i.toNat := by
      intro hcontra
      subst hcontra
      exact hd hk0id.symm
    have hidxne : jsFindIndex (fun a _ => decide (a.id = d)) state.items ≠ i := by
      rw [heq]
      intro hcontra
      have hki : k0 = i.toNat := by omega
      exact hk0i hki
    have hresult := unregisterItemReducer_kept_erase state d i hi h0 hlen hne hidxne
    have hmem : state.items.get ⟨i.toNat, hlen⟩ ∈
        state.items.eraseIdx
          (jsFindIndex (fun a _ => decide (a.id = d)) state.items).toNat := by
      rw [heq]
      have htn : ((k0 : Int)).toNat = k0 := by omega
      rw [htn]
      exact get_mem_eraseIdx hlen hk0 (fun hcb => hk0i hcb.symm)
    obtain ⟨k, hk, hidxof, hgetk⟩ := jsIndexOf_spec _ _ hmem
    have hstep : stateReducer state (Action.unregisterItem d) =
        unregisterItemReducer state d := rfl
    rw [hstep, hresult]
    refine ⟨k, hk, ?_, hgetk⟩
    show some (jsIndexOf (state.items.get ⟨i.toNat, hlen⟩)
      (state.items.eraseIdx
        (jsFindIndex (fun a _ => decide (a.id = d)) state.items).toNat)) = some (k : Int)
    rw [hidxof]

/-- Witness for claim C3: on the three-item state with item 0 active,
unregistering item-a clears the active index, and unregistering item-b
leaves the same item record (itemAlpha) active at its new position. -/
theorem unregister_active_identity_witness :
    (stateReducer threeItemState (Action.unregisterItem "item-a")).activeItemIndex =
      none ∧
    ∃ k, ∃ hk : k <
        (stateReducer threeItemState (Action.unregisterItem "item-b")).items.length,
      (stateReducer threeItemState (Action.unregisterItem "item-b")).activeItemIndex =
        some (k : Int) ∧
      (stateReducer threeItemState (Action.unregisterItem "item-b")).items.get
        ⟨k, hk⟩ = itemAlpha := by
  have h := unregister_active_identity threeItemState 0 (by decide) rfl (by decide)
    (by decide)
  exact ⟨h.1, h.2 "item-b" (by decide) ⟨1, by decide, by decide⟩⟩

/-- The invariant of claim C1: the active index is unset or a valid index
into the items list. -/
def activeIndexValid (s : StateDefinition) : Prop :=
  s.activeItemIndex = none ∨
    ∃ i, s.activeItemIndex = some i ∧ 0 ≤ i ∧ i.toNat < s.items.length

/-- Recognizer for the RegisterItem and UnregisterItem actions. -/
def isRegisterOrUnregister : Action → Bool
  | Action.registerItem _ _ => true
  | Action.unregisterItem _ => true
  | _ => false

/-- RegisterItem preserves validity of the active index: the list only
grows and the active index is untouched. -/
theorem registerItemReducer_preserves (s : StateDefinition) (id : String)
    (dataRef : MenuItemData) (h : activeIndexValid s) :
    activeIndexValid (registerItemReducer s id dataRef) := by
  rcases h with hnone | ⟨i, hi, h0, hlen⟩
  · exact Or.inl hnone
  · refine Or.inr ⟨i, hi, h0, ?_⟩
    show i.toNat < (s.items ++ [({ id := id, dataRef := dataRef } : MenuItem)]).length
    rw [List.length_append]
    omega

/-- UnregisterItem preserves validity of the active index. -/
theorem unregisterItemReducer_preserves (s : StateDefinition) (d : String)
    (h : activeIndexValid s) : activeIndexValid (unregisterItemReducer s d) := by
  rcases h with hnone | ⟨i, hi, h0, hlen⟩
  · exact Or.inl (unregisterItemReducer_none s d hnone)
  · by_cases hact : some (jsFindIndex (fun a _ => decide (a.id = d)) s.items) =
        s.activeItemIndex
    · exact Or.inl (unregisterItemReducer_removed_active s d hact)
    · have hidxnei : jsFindIndex (fun a _ => decide (a.id = d)) s.items ≠ i := by
        intro hco
        exact hact (by rw [hco, hi])
      by_cases hidx : jsFindIndex (fun a _ => decide (a.id = d)) s.items = -1
      · have hres := unregisterItemReducer_kept_noerase s d i hi h0 hlen hidx
        have hmem : s.items.get ⟨i.toNat, hlen⟩ ∈ s.items := List.get_mem _ _ _
        obtain ⟨k, hk, hio, hgetk⟩ := jsIndexOf_spec _ _ hmem
        rw [hres]
        refine Or.inr ⟨(k : Int), ?_, by omega, ?_⟩
        · show some (jsIndexOf (s.items.get ⟨i.toNat, hlen⟩) s.items) = some (k : Int)
          rw [hio]
        · show ((k : Int)).toNat < s.items.length
          omega
      · obtain ⟨k0, hk0, heq, hpk0, -⟩ := jsFindIndex_nonneg_of_ne hidx
        have hk0i : k0 ≠ i.toNat := by
          intro hco
          apply hidxnei
          rw [heq, hco]
          exact Int.toNat_of_nonneg h0
        have hres := unregisterItemReducer_kept_erase s d i hi h0 hlen hidx hidxnei
        have hmem : s.items.get ⟨i.toNat, hlen⟩ ∈
            s.items.eraseIdx
              (jsFindIndex (fun a _ => decide (a.id = d)) s.items).toNat := by
          rw [heq]
          have htn : ((k0 : Int)).toNat = k0 := by omega
          rw [htn]
          exact get_mem_eraseIdx hlen hk0 (fun hcb => hk0i hcb.symm)
        obtain ⟨k, hk, hio, hgetk⟩ := jsIndexOf_spec _ _ hmem
        rw [hres]
        refine Or.inr ⟨(k : Int), ?_, by omega, ?_⟩
        · show some (jsIndexOf (s.items.get ⟨i.toNat, hlen⟩)
            (s.items.eraseIdx
              (jsFindIndex (fun a _ => decide (a.id = d)) s.items).toNat)) =
              some (k : Int)
          rw [hio]
        · show ((k : Int)).toNat < (s.items.eraseIdx
            (jsFindIndex (fun a _ => decide (a.id = d)) s.items).toNat).length
          have htk : ((k : Int)).toNat = k := by omega
          rw [htk]
          exact hk

/-- Folding any run of RegisterItem and UnregisterItem actions preserves
validity of the active index. -/
theorem foldl_register_unregister_valid (actions : List Action) :
    ∀ s : StateDefinition, activeIndexValid s →
      (∀ a ∈ actions, isRegisterOrUnregister a = true) →
      activeIndexValid (actions.foldl stateReducer s) := by
  induction actions with
  | nil =>
    intro s hs _
    simpa using hs
  | cons a rest ih =>
    intro s hs hall
    have ha := hall a (List.mem_cons_self a rest)
    have hstep : activeIndexValid (stateReducer s a) := by
      cases a with
      | toggleMenu => simp [isRegisterOrUnregister] at ha
      | openMenu => simp [isRegisterOrUnregister] at ha
      | closeMenu => simp [isRegisterOrUnregister] at ha
      | goToItem focus id => simp [isRegisterOrUnregister] at ha
      | search v => simp [isRegisterOrUnregister] at ha
      | clearSearch => simp [isRegisterOrUnregister] at ha
      | registerItem id dataRef => exact registerItemReducer_preserves s id dataRef hs
      | unregisterItem id => exact unregisterItemReducer_preserves s id hs
    rw [List.foldl_cons]
    exact ih (stateReducer s a) hstep (fun b hb => hall b (List.mem_cons_of_mem a hb))

/-- Claim C1: after any sequence of RegisterItem and UnregisterItem
actions applied with the reducer from the initial state (empty items, no
active item), activeItemIndex is either unset or a valid index into the
current items list. -/
theorem register_unregister_invariant (actions : List Action)
    (h : ∀ a ∈ actions, isRegisterOrUnregister a = true) :
    activeIndexValid (actions.foldl stateReducer defaultState) :=
  foldl_register_unregister_valid actions defaultState (Or.inl rfl) h

/-- Witness for claim C1: a concrete register, register, unregister run
from the initial state keeps the active index valid. -/
theorem register_unregister_invariant_witness :
    activeIndexValid
      ([Action.registerItem "item-a" { textValue := some "alpha", disabled := false },
        Action.registerItem "item-b" { textValue := some "beta", disabled := false },
        Action.unregisterItem "item-a"].foldl stateReducer defaultState) :=
  register_unregister_invariant _ (by decide)

/-- Claim C2 (divergence evaluation): the Search reducer compares the raw
typed value with a case-sensitive startsWith against the lowercased
cached text, so the upper-case query A matches nothing (activeItemIndex
stays unset) even though the lower-case query a selects the item. -/
theorem search_uppercase_no_match :
    (stateReducer appleState (Action.search "A")).searchQuery = "A" ∧
    (stateReducer appleState (Action.search "A")).activeItemIndex = none ∧
    (stateReducer appleState (Action.search "a")).activeItemIndex = some 0 := by
  decide

end TailwindMenu
